import Mathlib

/-!
Verification development for the github_commit_collector repository.

The Python source is shallowly embedded: every network response is passed
in as an explicit oracle argument (a function or an Except value), Python
dicts become association lists or Option-valued functions, exceptions
become Except, and time.time() / time.sleep become explicit integer
arguments and return values.  Machine-level concerns (actual HTTP,
logging) are outside the embedding; the control flow and data flow of the
source functions are reproduced faithfully.
-/

namespace GCC

/-! ### Team mapper (src/team_mapper.py) -/

/-- Python str.lower, modelled character-wise (the usernames involved are
plain ASCII logins). -/
def pyLower (s : String) : String := String.mk (s.data.map Char.toLower)

/-- Configuration dictionary handed to TeamMapper.__init__ : the
default_team key (absent means the Python .get default "unassigned") and
the teams table, a dict from team name to member username list, in
insertion order. -/
structure TeamConfig where
  default_team : Option String
  teams : List (String × List String)

/-- The username_to_team dict built by TeamMapper.__init__ : for each team
and each member username, map username.lower() to the team name; a later
assignment to the same key overwrites an earlier one, exactly as Python
dict assignment does. -/
def build_username_to_team (teams : List (String × List String)) : String → Option String :=
  teams.foldl
    (fun m t =>
      t.2.foldl (fun m' u => fun q => if q = pyLower u then some t.1 else m' q) m)
    (fun _ => none)

/-- The TeamMapper state after __init__. -/
structure TeamMapper where
  username_to_team : String → Option String
  default_team : String

/-- TeamMapper.__init__ : default_team from config (defaulting to
"unassigned") and the lowered username map. -/
def mkTeamMapper (cfg : TeamConfig) : TeamMapper :=
  { username_to_team := build_username_to_team cfg.teams
  , default_team := cfg.default_team.getD "unassigned" }

/-- TeamMapper.get_team : the Python test `if not username` is true for
both None and the empty string; otherwise look up username.lower() in the
map, falling back to the default team. -/
def get_team (m : TeamMapper) (username : Option String) : String :=
  match username with
  | none => m.default_team
  | some u =>
      if u = "" then m.default_team
      else (m.username_to_team (pyLower u)).getD m.default_team

/-! ### Rate-limit check (src/github_client.py, _check_rate_limit) -/

/-- The core rate-limit resource read from the /rate_limit response. -/
structure RateStatus where
  remaining : Nat
  reset : Int

/-- GitHubAPIClient._check_rate_limit.  The status argument is none when
reading the rate-limit endpoint failed (the except branch: log and
proceed).  now stands for time.time(); the result is some w when the code
calls time.sleep(w) (w = reset - now + 1) and none when it proceeds
without sleeping. -/
def check_rate_limit (status : Option RateStatus) (buffer : Nat) (now : Int) : Option Int :=
  match status with
  | none => none
  | some s =>
      if s.remaining ≤ buffer then
        let wait : Int := s.reset - now + 1
        if wait > 0 then some wait else none
      else none

/-! ### Retry wrapper (src/github_client.py, _make_request) -/

/-- Constructor arguments stored by GitHubAPIClient.__init__. -/
structure ClientConfig where
  timeout : Nat := 30
  max_retries : Nat := 3
  rate_limit_buffer : Nat := 10

/-- Outcome of one attempt of the request body of _make_request: success,
a requests.exceptions.RequestException (retryable), a RateLimitError
(retryable), or any other exception (not in the retry filter). -/
inductive Attempt (α : Type) where
  | ok (a : α)
  | transient
  | rateLimited
  | other
deriving DecidableEq, Repr

/-- Whether the tenacity retry filter retry_if_exception_type
((RequestException, RateLimitError)) matches the outcome. -/
def Attempt.retryable : Attempt α → Bool
  | .ok _ => false
  | .transient => true
  | .rateLimited => true
  | .other => false

/-- The tenacity retry loop with stop_after_attempt: f n is the outcome of
attempt number n; remaining is how many attempts may still be made.
Returns the final result together with the number of attempts actually
made. -/
def retry_go (f : Nat → Attempt α) : Nat → Nat → Except Unit α × Nat
  | 0, n => (.error (), n)
  | remaining + 1, n =>
      match f n with
      | .ok a => (.ok a, n)
      | o =>
          if o.retryable ∧ remaining > 0 then retry_go f remaining (n + 1)
          else (.error (), n)

/-- GitHubAPIClient._make_request, viewed through its retry decorator:
the decorator is applied with the literal stop_after_attempt(3); the
cfg.max_retries field stored by __init__ is not consulted. -/
def make_request (cfg : ClientConfig) (f : Nat → Attempt α) : Except Unit α × Nat :=
  let _ := cfg.max_retries
  retry_go f 3 1

/-! ### Commit listing pagination (src/github_client.py, get_commits) -/

/-- The while-True page loop of GitHubAPIClient.get_commits.  fetch page
is the list the commit-listing endpoint returns for that page number (the
request itself carries per_page := min per_page 100 as a query parameter;
that is folded into the oracle).  The loop breaks on an empty page without
extending, otherwise extends and breaks when the page is shorter than
per_page, else continues with page + 1.  fuel bounds the number of
iterations so the embedding is total; none means the loop was still
running when fuel ran out.  The result carries the aggregated commits and
the number of page requests issued. -/
def get_commits_loop (fetch : Nat → List α) (per_page : Nat) : Nat → Nat → Option (List α × Nat)
  | 0, _ => none
  | fuel + 1, page =>
      let commits := fetch page
      if commits.isEmpty then some ([], 1)
      else if commits.length < per_page then some (commits, 1)
      else
        match get_commits_loop fetch per_page fuel (page + 1) with
        | none => none
        | some (rest, n) => some (commits ++ rest, n + 1)

/-- GitHubAPIClient.get_commits starts the page loop at page 1. -/
def get_commits (fetch : Nat → List α) (per_page : Nat) (fuel : Nat) : Option (List α × Nat) :=
  get_commits_loop fetch per_page fuel 1

/-! ### Branch detector (src/branch_detector.py) -/

/-- Repository metadata as read by detect_default_branch: the
default_branch field of the /repos/owner/repo response, none when the
field is absent. -/
structure RepoInfo where
  default_branch : Option String

/-- Oracle for the GitHubAPIClient calls the branch detector makes:
repoInfo owner repo is the outcome of get_repository_info (error = any
exception), and validate owner repo branch tells whether
get_commits(owner, repo, branch, per_page := 1) returns a non-empty list
(false also covers any exception, which validate_branch swallows). -/
structure ClientOracle where
  repoInfo : String → String → Except Unit RepoInfo
  validate : String → String → String → Bool

/-- The branch cache dict of BranchDetector, keyed by "owner/repo". -/
def BranchCache := List (String × String)

/-- Python dict lookup on the association-list model. -/
def dict_get (m : List (String × β)) (k : String) : Option β :=
  (m.find? (fun p => p.1 = k)).map (fun p => p.2)

/-- Python dict assignment on the association-list model: the new binding
wins over any earlier binding of the same key. -/
def dict_insert (m : List (String × β)) (k : String) (v : β) : List (String × β) :=
  (k, v) :: m.filter (fun p => p.1 ≠ k)

/-- Result of one detect_default_branch call: the returned branch name,
the cache afterwards, and whether a transport request
(get_repository_info) was issued. -/
structure DetectResult where
  branch : String
  cache : List (String × String)
  requested : Bool
deriving Repr

/-- BranchDetector.detect_default_branch: return the cached value when
the "owner/repo" key is present (no transport request); otherwise ask the
oracle, read the default_branch field defaulting to "main", cache and
return it; on any exception return "main" without caching. -/
def detect_default_branch (o : ClientOracle) (cache : List (String × String))
    (owner repo : String) : DetectResult :=
  let key := owner ++ "/" ++ repo
  match dict_get cache key with
  | some b => ⟨b, cache, false⟩
  | none =>
      match o.repoInfo owner repo with
      | .ok info => let d := info.default_branch.getD "main"
                    ⟨d, dict_insert cache key d, true⟩
      | .error _ => ⟨"main", cache, true⟩

/-- The for-loop over common_branches in get_branch_with_fallback: skip
the branch equal to the already-tried default, return the first remaining
candidate that validates, none when the loop falls through. -/
def try_common_branches (val : String → Bool) (default_branch : String) :
    List String → Option String
  | [] => none
  | b :: rest =>
      if b = default_branch then try_common_branches val default_branch rest
      else if val b then some b
      else try_common_branches val default_branch rest

/-- The fixed candidate list of get_branch_with_fallback. -/
def common_branches : List String := ["main", "master", "develop", "trunk"]

/-- Steps 2 to 4 of BranchDetector.get_branch_with_fallback: the detected
default branch is validated and returned on success; otherwise the first
common candidate (skipping the detected default) that validates is cached
and returned; otherwise the literal "main".  Returns the branch and the
cache afterwards. -/
def fallback_rest (o : ClientOracle) (cache : List (String × String))
    (owner repo : String) : String × List (String × String) :=
  let r := detect_default_branch o cache owner repo
  if o.validate owner repo r.branch then (r.branch, r.cache)
  else
    match try_common_branches (o.validate owner repo) r.branch common_branches with
    | some b => (b, dict_insert r.cache (owner ++ "/" ++ repo) b)
    | none => ("main", r.cache)

/-- Step 1 of BranchDetector.get_branch_with_fallback wrapped around the
tail fallback_rest: the Python `if preferred_branch:` is true only for a
provided, non-empty string. -/
def get_branch_with_fallback (o : ClientOracle) (cache : List (String × String))
    (owner repo : String) (preferred : Option String) : String × List (String × String) :=
  match preferred with
  | some p =>
      if p ≠ "" then
        (if o.validate owner repo p then (p, cache) else fallback_rest o cache owner repo)
      else fallback_rest o cache owner repo
  | none => fallback_rest o cache owner repo

/-! ### Commit processor (src/commit_processor.py) and models (src/models.py) -/

/-- The "author" object nested under "commit" in the API response; each
field may be absent. -/
structure AuthorInfo where
  name : Option String
  email : Option String
  date : Option String
deriving DecidableEq, Repr

/-- The "commit" object of the API response. -/
structure CommitInfo where
  author : Option AuthorInfo
  message : Option String
deriving DecidableEq, Repr

/-- The top-level "author" object (GitHub account); none models both an
absent key and a JSON null, matching the Python test
`if "author" in data and data["author"]`. -/
structure UserInfo where
  login : Option String
deriving DecidableEq, Repr

/-- The "stats" object of a detailed commit response. -/
structure StatsInfo where
  additions : Option Nat
  deletions : Option Nat
  total : Option Nat
deriving DecidableEq, Repr

/-- One element of the "files" array of a detailed commit response. -/
structure FileRaw where
  filename : Option String
  status : Option String
  additions : Option Nat
  deletions : Option Nat
  changes : Option Nat
  patch : Option String
deriving DecidableEq, Repr

/-- A raw commit JSON object (summary or detailed), restricted to the
keys process_commit reads. -/
structure RawCommit where
  sha : Option String
  commit : Option CommitInfo
  author : Option UserInfo
  html_url : Option String
  stats : Option StatsInfo
  files : Option (List FileRaw)
deriving DecidableEq, Repr

/-- models.FileChange. -/
structure FileChange where
  filename : String
  status : String
  additions : Nat
  deletions : Nat
  changes : Nat
  patch : Option String
deriving DecidableEq, Repr

/-- models.CommitData; commit_date is the parsed datetime, modelled as an
integer timestamp. -/
structure CommitData where
  repository_name : String
  repository_owner : String
  repository_url : String
  commit_sha : String
  commit_message : String
  commit_date : Int
  commit_url : String
  author_name : String
  author_username : Option String
  author_email : String
  team_name : String
  total_additions : Nat
  total_deletions : Nat
  total_changes : Nat
  files_changed_count : Nat
  branch : String
  file_changes : List FileChange
deriving DecidableEq, Repr

/-- CommitProcessor._process_file_changes, with the Python .get defaults
("", "modified", 0, 0, 0, None). -/
def process_file_changes (files_data : List FileRaw) : List FileChange :=
  files_data.map (fun f =>
    { filename := f.filename.getD ""
    , status := f.status.getD "modified"
    , additions := f.additions.getD 0
    , deletions := f.deletions.getD 0
    , changes := f.changes.getD 0
    , patch := f.patch })

/-- CommitProcessor.process_commit.  getTeam is team_mapper.get_team,
parseDate models dateutil date_parser.parse (none = the exception branch)
and now models datetime.now() used as the fallback date.  When
detailed_data is provided it replaces commit_data wholesale as the source
dict, exactly as in the Python
`data = detailed_data if detailed_data else commit_data`. -/
def process_commit (getTeam : Option String → String) (parseDate : String → Option Int)
    (now : Int) (commit_data : RawCommit)
    (repo_owner repo_name repo_url branch : String)
    (detailed_data : Option RawCommit) : CommitData :=
  let data := detailed_data.getD commit_data
  let commit_info := data.commit.getD ⟨none, none⟩
  let author_info := commit_info.author.getD ⟨none, none, none⟩
  let author_name := author_info.name.getD "Unknown"
  let author_email := author_info.email.getD ""
  let author_username := data.author.bind (fun a => a.login)
  let team_name := getTeam author_username
  let commit_date_str := author_info.date.getD ""
  let commit_date := (parseDate commit_date_str).getD now
  let stats := data.stats.getD ⟨none, none, none⟩
  let total_additions := stats.additions.getD 0
  let total_deletions := stats.deletions.getD 0
  let total_changes := stats.total.getD (total_additions + total_deletions)
  let file_changes := process_file_changes (data.files.getD [])
  { repository_name := repo_name
  , repository_owner := repo_owner
  , repository_url := repo_url
  , commit_sha := data.sha.getD ""
  , commit_message := commit_info.message.getD ""
  , commit_date := commit_date
  , commit_url := data.html_url.getD ""
  , author_name := author_name
  , author_username := author_username
  , author_email := author_email
  , team_name := team_name
  , total_additions := total_additions
  , total_deletions := total_deletions
  , total_changes := total_changes
  , files_changed_count := file_changes.length
  , branch := branch
  , file_changes := file_changes }

/-- CommitProcessor.process_commits_batch: look the SHA of each summary
commit up in the detailed_commits dict (the Python
`detailed_commits.get(sha) if detailed_commits else None`) and process
it; process_commit is total in the embedding, so the per-commit
try/except never drops a record. -/
def process_commits_batch (getTeam : Option String → String) (parseDate : String → Option Int)
    (now : Int) (commits_data : List RawCommit)
    (repo_owner repo_name repo_url branch : String)
    (detailed_commits : List (String × RawCommit)) : List CommitData :=
  commits_data.map (fun cd =>
    let detailed :=
      if detailed_commits.isEmpty then none
      else cd.sha.bind (fun s => dict_get detailed_commits s)
    process_commit getTeam parseDate now cd repo_owner repo_name repo_url branch detailed)

/-- The detail-fetch loop of DataCollector.collect_repository_commits
(the fetch_detailed_commits branch): for each listed commit with a SHA,
try get_commit_details; on success store the result under that SHA, on
any exception log and move on.  get_details is the oracle for
GitHubAPIClient.get_commit_details. -/
def build_detailed_commits (get_details : String → Except Unit RawCommit)
    (commits : List RawCommit) : List (String × RawCommit) :=
  commits.foldl
    (fun acc c =>
      match c.sha with
      | none => acc
      | some s =>
          match get_details s with
          | .ok d => dict_insert acc s d
          | .error _ => acc)
    []

/-- The tail of DataCollector.collect_repository_commits after the
listing call returned commits: optionally fetch per-commit details, then
process the batch. -/
def collect_process (fetch_detailed : Bool) (get_details : String → Except Unit RawCommit)
    (getTeam : Option String → String) (parseDate : String → Option Int) (now : Int)
    (commits : List RawCommit) (repo_owner repo_name repo_url branch : String) :
    List CommitData :=
  let detailed_commits :=
    if fetch_detailed then build_detailed_commits get_details commits else []
  process_commits_batch getTeam parseDate now commits repo_owner repo_name repo_url branch
    detailed_commits

/-! ### Collection orchestrator (src/data_collector.py, collect_multiple_repositories) -/

/-- The filter keys read out of the merged filter dict. -/
structure Filters where
  date_from : Option String
  date_to : Option String
  author : Option String
deriving DecidableEq, Repr

/-- The Python dict merge of global and per-repository filters: a key
present in the repository filters wins over the global one. -/
def merge_filters (g r : Filters) : Filters :=
  { date_from := r.date_from.orElse (fun _ => g.date_from)
  , date_to := r.date_to.orElse (fun _ => g.date_to)
  , author := r.author.orElse (fun _ => g.author) }

/-- One entry of the repositories configuration list as read by
collect_multiple_repositories via .get. -/
structure RepoConfig where
  url : Option String
  branch : Option String
  filters : Option Filters
deriving Repr

/-- DataCollector.collect_multiple_repositories.  collect abstracts
self.collect_repository_commits applied to the url, branch and merged
filters of one configuration entry; an error value models the exception
the per-repository try/except catches: that repository contributes
nothing and the loop continues. -/
def collect_multiple_repositories (collect : Option String → Option String → Filters →
    Except Unit (List α)) (repos_config : List RepoConfig) (global_filters : Filters) :
    List α :=
  repos_config.foldl
    (fun all_commits repo_config =>
      let filters := merge_filters global_filters (repo_config.filters.getD ⟨none, none, none⟩)
      match collect repo_config.url repo_config.branch filters with
      | .ok commits => all_commits ++ commits
      | .error _ => all_commits)
    []

/-! ### Startup flow (src/main.py, main) -/

/-- The command-line arguments relevant to the startup checks, at their
argparse defaults unless stated: repo is the optional --repo value,
branch the --branch value (default "main"), test connection the
--test-connection flag. -/
structure Args where
  repo : Option String
  branch : String := "main"
  test_conn : Bool := false

/-- The observable outcome of the startup portion of main(): the exit
code when the run ends before commit collection (none when collection is
reached), the number of network requests issued up to that point, and
whether commit collection was started. -/
structure MainResult where
  exit_code : Option Int
  net_requests : Nat
  collection_started : Bool
deriving DecidableEq, Repr

/-- The startup control flow of main() up to the call of
collect_multiple_repositories: validate_config raises only when the
GitHub token is absent (zero configured repositories merely logs a
warning there) and the exception is caught by the top-level handler
(exit 1, no network traffic yet); constructing GitHubAPIClient issues no
request; --test-connection issues one request and exits; otherwise the
repository list is the single --repo entry when given, else the
configured list, and an empty list exits 1 before any request;
otherwise collection starts. -/
def main_startup (token_present : Bool) (conn_ok : Bool)
    (config_repos : List RepoConfig) (args : Args) : MainResult :=
  if ¬ token_present then ⟨some 1, 0, false⟩
  else if args.test_conn then ⟨some (if conn_ok then 0 else 1), 1, false⟩
  else
    let repos_config :=
      match args.repo with
      | some u => [({ url := some u, branch := some args.branch, filters := none } : RepoConfig)]
      | none => config_repos
    if repos_config.isEmpty then ⟨some 1, 0, false⟩
    else ⟨none, 0, true⟩

/-! ### Concrete data used by witnesses and counterexamples -/

/-- A page oracle returning two full pages of 100 and a last page of 37. -/
def fetch_pages_ex : Nat → List Nat :=
  fun n => if n ≤ 2 then List.replicate 100 0 else if n = 3 then List.replicate 37 0 else []

/-- An oracle whose repository metadata declares "master" and for which
every branch validates. -/
def oracle_all_valid : ClientOracle :=
  { repoInfo := fun _ _ => .ok ⟨some "master"⟩
  , validate := fun _ _ _ => true }

/-- A page oracle describing the successive commit pages of a branch, for
stating what the aggregate of the first n pages starting at page p is. -/
def pages_from (fetch : Nat → List α) (p : Nat) : Nat → List (List α)
  | 0 => []
  | n + 1 => fetch p :: pages_from fetch (p + 1) n

/-- A client configuration constructed with max_retries = 5. -/
def cfg5 : ClientConfig := { max_retries := 5 }

/-- An oracle whose repository metadata declares "master" and for which
only the branch "develop" validates. -/
def oracle_dev : ClientOracle :=
  { repoInfo := fun _ _ => .ok ⟨some "master"⟩
  , validate := fun _ _ b => b == "develop" }

/-- A team configuration with one backend team member, as in the spec's
attribution example. -/
def team_cfg_ex : TeamConfig :=
  { default_team := none, teams := [("backend", ["alice"])] }

/-- A raw summary commit with a given SHA and no detail payload. -/
def raw_commit_ex (s : String) : RawCommit :=
  { sha := some s, commit := none, author := none, html_url := none
  , stats := none, files := none }

/-- A detailed commit payload for a given SHA carrying one changed file. -/
def raw_detail_ex (s : String) : RawCommit :=
  { sha := some s, commit := none, author := none, html_url := none
  , stats := some ⟨some 3, some 1, some 4⟩
  , files := some [⟨some "f.txt", some "modified", some 3, some 1, some 4, none⟩] }

/-- A detail oracle that fails for the SHA "c" and answers every other
SHA with its detailed payload. -/
def get_details_ex : String → Except Unit RawCommit :=
  fun s => if s = "c" then .error () else .ok (raw_detail_ex s)

/-! ### Shared dictionary lemmas -/

theorem dict_get_nil (k : String) : dict_get ([] : List (String × β)) k = none := rfl

theorem dict_get_insert_self (m : List (String × β)) (k : String) (v : β) :
    dict_get (dict_insert m k v) k = some v := by
  simp [dict_get, dict_insert]

theorem dict_get_cons_self (p : String × β) (m : List (String × β)) (k : String)
    (h : p.1 = k) : dict_get (p :: m) k = some p.2 := by
  simp [dict_get, List.find?_cons, h]

theorem dict_get_cons_ne (p : String × β) (m : List (String × β)) (k : String)
    (h : ¬ p.1 = k) : dict_get (p :: m) k = dict_get m k := by
  simp [dict_get, List.find?_cons, h]

theorem dict_get_filter_ne (m : List (String × β)) (k k' : String) (h : k' ≠ k) :
    dict_get (m.filter (fun p => p.1 ≠ k)) k' = dict_get m k' := by
  induction m with
  | nil => rfl
  | cons p m ih =>
      by_cases hk : p.1 = k
      · have hp' : ¬ p.1 = k' := by rw [hk]; exact Ne.symm h
        rw [List.filter_cons_of_neg (by simp [hk]), ih, dict_get_cons_ne p m k' hp']
      · rw [List.filter_cons_of_pos (by simp [hk])]
        by_cases hp' : p.1 = k'
        · rw [dict_get_cons_self p _ k' hp', dict_get_cons_self p m k' hp']
        · rw [dict_get_cons_ne p _ k' hp', dict_get_cons_ne p m k' hp', ih]

theorem dict_get_insert_ne (m : List (String × β)) (k k' : String) (v : β)
    (h : k' ≠ k) : dict_get (dict_insert m k v) k' = dict_get m k' := by
  unfold dict_insert
  rw [dict_get_cons_ne _ _ k' (by simpa using Ne.symm h)]
  exact dict_get_filter_ne m k k' h

/-! ### C10: team attribution lookup -/

/-- C10: TeamMapper.get_team is a total function (it never raises); the
absent username and the empty username both map to the configured default
team; a non-empty username is looked up case-insensitively in the
username map built from the configuration, falling back to the default
team, so two usernames differing only in case map to the same team. -/
theorem get_team_spec (cfg : TeamConfig) :
    get_team (mkTeamMapper cfg) none = cfg.default_team.getD "unassigned" ∧
    get_team (mkTeamMapper cfg) (some "") = cfg.default_team.getD "unassigned" ∧
    (∀ u : String, u ≠ "" →
      get_team (mkTeamMapper cfg) (some u) =
        (build_username_to_team cfg.teams (pyLower u)).getD (cfg.default_team.getD "unassigned")) ∧
    (∀ u v : String, u ≠ "" → v ≠ "" → pyLower u = pyLower v →
      get_team (mkTeamMapper cfg) (some u) = get_team (mkTeamMapper cfg) (some v)) := by
  refine ⟨rfl, by simp [get_team, mkTeamMapper], ?_, ?_⟩
  · intro u hu
    simp [get_team, mkTeamMapper, hu]
  · intro u v hu hv h
    simp [get_team, mkTeamMapper, hu, hv, h]

/-- C10 witness: the spec's attribution example, "ALICE" maps to
"backend" through the mapping entry "alice", and an absent username maps
to the default team. -/
theorem get_team_witness :
    get_team (mkTeamMapper team_cfg_ex) (some "ALICE") = "backend" ∧
    get_team (mkTeamMapper team_cfg_ex) none = "unassigned" := by
  constructor
  · rw [(get_team_spec team_cfg_ex).2.2.1 "ALICE" (by decide)]
    rfl
  · exact (get_team_spec team_cfg_ex).1

/-! ### C8: rate-limit gating -/

/-- C8 counterexample: remaining 5 is at or below the buffer 10, yet with
the reported reset time already in the past (reset 100, now 101)
_check_rate_limit does not sleep, so sleeping is not equivalent to the
quota being at or below the buffer. -/
theorem check_rate_limit_counterexample :
    5 ≤ 10 ∧ check_rate_limit (some ⟨5, 100⟩) 10 101 = none := by
  constructor
  · decide
  · simp [check_rate_limit]

/-- C8 (amended): with a successfully read rate-limit status the
transport sleeps iff the remaining quota is at or below the buffer and
the computed wake-up time (one second past the reported reset) is still
in the future, and any sleep lasts exactly until that wake-up time; a
failed rate-limit read never sleeps and the request proceeds. -/
theorem check_rate_limit_spec (s : RateStatus) (buffer : Nat) (now : Int) :
    ((check_rate_limit (some s) buffer now).isSome ↔
      (s.remaining ≤ buffer ∧ now < s.reset + 1)) ∧
    (∀ w, check_rate_limit (some s) buffer now = some w → now + w = s.reset + 1) ∧
    check_rate_limit none buffer now = none := by
  refine ⟨?_, ?_, rfl⟩
  · by_cases h : s.remaining ≤ buffer
    · by_cases h2 : s.reset - now + 1 > 0
      · simp [check_rate_limit, h, h2]
        omega
      · simp [check_rate_limit, h, h2]
        omega
    · simp [check_rate_limit, h]
  · intro w hw
    by_cases h : s.remaining ≤ buffer
    · by_cases h2 : s.reset - now + 1 > 0
      · simp [check_rate_limit, h, h2] at hw
        omega
      · simp [check_rate_limit, h, h2] at hw
    · simp [check_rate_limit, h] at hw

/-- C8 witness: remaining 5 with buffer 10 and a future reset sleeps
until one second past the reset; remaining 50 with buffer 10 does not
sleep; a failed status read does not sleep. -/
theorem check_rate_limit_witness :
    check_rate_limit (some ⟨5, 1000⟩) 10 0 = some 1001 ∧
    (0 : Int) + 1001 = 1000 + 1 ∧
    check_rate_limit (some ⟨50, 1000⟩) 10 0 = none ∧
    check_rate_limit none 10 0 = none := by
  have hsleep : check_rate_limit (some ⟨5, 1000⟩) 10 0 = some 1001 := by
    simp [check_rate_limit]
  exact ⟨hsleep, (check_rate_limit_spec ⟨5, 1000⟩ 10 0).2.1 1001 hsleep,
    by simp [check_rate_limit], (check_rate_limit_spec ⟨5, 1000⟩ 10 0).2.2⟩

/-! ### C3: retry attempt budget -/

/-- C3: _make_request's retry decorator stops after the literal 3
attempts: a client constructed with max_retries = 5 still gives up after
exactly 3 attempts under permanently failing transient errors (the
stored max_retries field is never consulted), while two transient
failures followed by success succeed with exactly 3 attempts. -/
theorem make_request_attempts_hardcoded :
    cfg5.max_retries = 5 ∧
    make_request cfg5 (fun _ => (Attempt.transient : Attempt Nat)) = (.error (), 3) ∧
    make_request cfg5
      (fun a => if a ≤ 2 then (Attempt.transient : Attempt Nat) else .ok 7) = (.ok 7, 3) := by
  refine ⟨rfl, ?_, ?_⟩ <;> simp [make_request, retry_go, Attempt.retryable]

/-! ### C9: zero configured repositories -/

/-- C9: when no --repo argument is given, --test-connection is not set,
and the configured repository list is empty, the startup flow of main()
exits with code 1 having issued no network request and never starting
commit collection; this holds whether or not the token is present. -/
theorem main_startup_zero_repos (token_present conn_ok : Bool) (args : Args)
    (config_repos : List RepoConfig)
    (hrepos : config_repos = []) (hrepo : args.repo = none) (htest : args.test_conn = false) :
    main_startup token_present conn_ok config_repos args =
      ⟨some 1, 0, false⟩ := by
  subst hrepos
  cases token_present <;> simp [main_startup, hrepo, htest]

/-- C9 witness: the default argument set with an empty configured
repository list aborts with exit code 1, zero network requests and no
collection. -/
theorem main_startup_zero_repos_witness :
    main_startup true true [] { repo := none } = ⟨some 1, 0, false⟩ :=
  main_startup_zero_repos true true { repo := none } [] rfl rfl rfl

/-! ### C6: default-branch detection degrades to "main" -/

/-- C6: detect_default_branch is a total function (it never raises);
absent a cache entry for the repository it returns "main" when the
metadata request fails, and on success it returns the declared
default_branch field, defaulting to "main" when the field is absent. -/
theorem detect_default_branch_spec (o : ClientOracle) (cache : List (String × String))
    (owner repo : String) (h : dict_get cache (owner ++ "/" ++ repo) = none) :
    (detect_default_branch o cache owner repo).branch =
      (match o.repoInfo owner repo with
       | .error _ => "main"
       | .ok info => info.default_branch.getD "main") := by
  simp only [detect_default_branch, h]
  cases o.repoInfo owner repo <;> rfl

/-- C6 witness: with an empty cache, a failing metadata request yields
"main", and a successful request with the field absent also yields
"main". -/
theorem detect_default_branch_witness :
    (detect_default_branch ⟨fun _ _ => .error (), fun _ _ _ => true⟩ [] "o" "r").branch
      = "main" ∧
    (detect_default_branch ⟨fun _ _ => .ok ⟨none⟩, fun _ _ _ => true⟩ [] "o" "r").branch
      = "main" :=
  ⟨detect_default_branch_spec ⟨fun _ _ => .error (), fun _ _ _ => true⟩ [] "o" "r" rfl,
   detect_default_branch_spec ⟨fun _ _ => .ok ⟨none⟩, fun _ _ _ => true⟩ [] "o" "r" rfl⟩

/-! ### C7: detection cache hit after first success -/

/-- C7: once detect_default_branch has succeeded for a repository, any
later call for the same owner/repo — with any oracle, i.e. whatever the
network would now answer — returns the cached branch name, leaves the
cache unchanged, and issues no transport request. -/
theorem detect_default_branch_cached (o o2 : ClientOracle)
    (cache : List (String × String)) (owner repo : String) (info : RepoInfo)
    (h : dict_get cache (owner ++ "/" ++ repo) = none)
    (hok : o.repoInfo owner repo = .ok info) :
    detect_default_branch o2 (detect_default_branch o cache owner repo).cache owner repo =
      ⟨(detect_default_branch o cache owner repo).branch,
       (detect_default_branch o cache owner repo).cache, false⟩ := by
  have hfirst : detect_default_branch o cache owner repo =
      ⟨info.default_branch.getD "main",
       dict_insert cache (owner ++ "/" ++ repo) (info.default_branch.getD "main"), true⟩ := by
    simp only [detect_default_branch, h, hok]
  rw [hfirst]
  simp [detect_default_branch, dict_get_insert_self]

/-- C7 witness: a concrete first detection (empty cache, metadata
declaring "trunk") followed by a second call whose oracle would now fail;
the second call still answers "trunk" from the cache without a request. -/
theorem detect_default_branch_cached_witness :
    detect_default_branch ⟨fun _ _ => .error (), fun _ _ _ => true⟩
        (detect_default_branch ⟨fun _ _ => .ok ⟨some "trunk"⟩, fun _ _ _ => true⟩
          [] "o" "r").cache "o" "r" =
      ⟨"trunk", [("o" ++ "/" ++ "r", "trunk")], false⟩ := by
  have h := detect_default_branch_cached ⟨fun _ _ => .ok ⟨some "trunk"⟩, fun _ _ _ => true⟩
    ⟨fun _ _ => .error (), fun _ _ _ => true⟩ [] "o" "r" ⟨some "trunk"⟩ rfl rfl
  rw [h]
  rfl

/-! ### C4: orchestrator resilience -/

/-- C4: collect_multiple_repositories is a total function (a failure
collecting one repository is caught and skipped) and returns exactly the
concatenation, in configuration order, of the commit lists of those
repositories whose collection succeeded. -/
theorem collect_multiple_repositories_spec
    (collect : Option String → Option String → Filters → Except Unit (List α))
    (repos_config : List RepoConfig) (global_filters : Filters) :
    collect_multiple_repositories collect repos_config global_filters =
      ((repos_config.map (fun cfg => collect cfg.url cfg.branch
          (merge_filters global_filters (cfg.filters.getD ⟨none, none, none⟩)))).filterMap
        Except.toOption).flatten := by
  suffices h : ∀ (cfgs : List RepoConfig) (acc : List α),
      cfgs.foldl
        (fun all_commits repo_config =>
          let filters := merge_filters global_filters
            (repo_config.filters.getD ⟨none, none, none⟩)
          match collect repo_config.url repo_config.branch filters with
          | .ok commits => all_commits ++ commits
          | .error _ => all_commits)
        acc =
      acc ++ ((cfgs.map (fun cfg => collect cfg.url cfg.branch
          (merge_filters global_filters (cfg.filters.getD ⟨none, none, none⟩)))).filterMap
        Except.toOption).flatten by
    simpa [collect_multiple_repositories] using h repos_config []
  intro cfgs
  induction cfgs with
  | nil => intro acc; simp
  | cons c cs ih =>
      intro acc
      cases hc : collect c.url c.branch
          (merge_filters global_filters (c.filters.getD ⟨none, none, none⟩)) with
      | ok commits => simp [hc, ih, Except.toOption]
      | error e => simp [hc, ih, Except.toOption]

/-! ### C2: pagination -/

theorem get_commits_loop_pages (fetch : Nat → List α) (per_page : Nat)
    (hpp : 0 < per_page) :
    ∀ (k fuel p : Nat),
      (∀ q, p ≤ q → q < p + k → (fetch q).length = per_page) →
      (fetch (p + k)).length < per_page → k < fuel →
      get_commits_loop fetch per_page fuel p =
        some ((pages_from fetch p (k + 1)).flatten, k + 1) := by
  intro k
  induction k with
  | zero =>
      intro fuel p _ hlast hfuel
      match fuel, hfuel with
      | fuel + 1, _ =>
        rw [Nat.add_zero] at hlast
        by_cases he : (fetch p).isEmpty
        · have : fetch p = [] := List.isEmpty_iff.mp he
          simp [get_commits_loop, he, pages_from, this]
        · simp [get_commits_loop, he, hlast, pages_from]
  | succ k ih =>
      intro fuel p hfull hlast hfuel
      match fuel, hfuel with
      | fuel + 1, hfuel =>
        have hp : (fetch p).length = per_page :=
          hfull p le_rfl (by omega)
        have hne : ¬ (fetch p).isEmpty := by
          rw [List.isEmpty_iff_length_eq_zero, hp]
          omega
        have hnlt : ¬ (fetch p).length < per_page := by omega
        have hrec : get_commits_loop fetch per_page fuel (p + 1) =
            some ((pages_from fetch (p + 1) (k + 1)).flatten, k + 1) := by
          refine ih fuel (p + 1) (fun q h1 h2 => hfull q (by omega) (by omega)) ?_ (by omega)
          have : p + 1 + k = p + (k + 1) := by omega
          rw [this]
          exact hlast
        simp [get_commits_loop, hne, hnlt, hrec, pages_from]

/-- C2: get_commits requests successive pages starting at page 1 and
stops exactly at the first page that is empty or shorter than the page
size: when the first k pages are full (length per_page) and page k + 1 is
short, exactly k + 1 page requests are issued and the result is the
concatenation of pages 1 through k + 1 in order. -/
theorem get_commits_pagination (fetch : Nat → List α) (per_page k fuel : Nat)
    (hpp : 0 < per_page)
    (hfull : ∀ i, i < k → (fetch (1 + i)).length = per_page)
    (hlast : (fetch (1 + k)).length < per_page) (hfuel : k < fuel) :
    get_commits fetch per_page fuel =
      some ((pages_from fetch 1 (k + 1)).flatten, k + 1) := by
  unfold get_commits
  refine get_commits_loop_pages fetch per_page hpp k fuel 1 ?_ hlast hfuel
  intro q h1 h2
  have h := hfull (q - 1) (by omega)
  rwa [show 1 + (q - 1) = q by omega] at h

set_option maxRecDepth 8000 in
/-- C2 witness: pages of sizes 100, 100, 37 aggregate to exactly 237
commits with exactly 3 page requests, and a first page of size 0 gives an
empty result with exactly 1 page request. -/
theorem get_commits_pagination_witness :
    get_commits fetch_pages_ex 100 10 = some ((pages_from fetch_pages_ex 1 3).flatten, 3) ∧
    ((pages_from fetch_pages_ex 1 3).flatten).length = 237 ∧
    get_commits (fun _ => ([] : List Nat)) 100 10 = some ([], 1) := by
  refine ⟨get_commits_pagination fetch_pages_ex 100 2 10 (by decide)
      (by decide) (by decide) (by decide), by decide, ?_⟩
  have h := get_commits_pagination (fun _ => ([] : List Nat)) 100 0 10 (by decide)
    (by decide) (by decide) (by decide)
  simpa [pages_from] using h

/-! ### C1: branch fallback priority -/

theorem try_common_branches_eq_find (val : String → Bool) (d : String) (l : List String) :
    try_common_branches val d l = l.find? (fun b => (b != d) && val b) := by
  induction l with
  | nil => rfl
  | cons b rest ih =>
      by_cases hb : b = d
      · simp [try_common_branches, hb, List.find?_cons, ih]
      · by_cases hv : val b
        · simp [try_common_branches, hb, hv, List.find?_cons]
        · simp [try_common_branches, hb, hv, List.find?_cons, ih]

theorem fallback_rest_branch (o : ClientOracle) (cache : List (String × String))
    (owner repo : String) :
    (o.validate owner repo (detect_default_branch o cache owner repo).branch = true →
      (fallback_rest o cache owner repo).1 =
        (detect_default_branch o cache owner repo).branch) ∧
    (o.validate owner repo (detect_default_branch o cache owner repo).branch = false →
      (fallback_rest o cache owner repo).1 =
        (common_branches.find? (fun b =>
          (b != (detect_default_branch o cache owner repo).branch) &&
            o.validate owner repo b)).getD "main") := by
  constructor
  · intro hv
    simp [fallback_rest, hv]
  · intro hv
    simp only [fallback_rest, hv, Bool.false_eq_true, if_false,
      try_common_branches_eq_find]
    cases hf : common_branches.find? (fun b =>
        (b != (detect_default_branch o cache owner repo).branch) &&
          o.validate owner repo b) <;> simp [hf]

/-- C1 (amended): get_branch_with_fallback returns, in strict priority
order: the preferred branch when it is provided, non-empty (the Python
truthiness test on the preferred branch) and validates; else the detected
default branch when it validates; else the first candidate of the fixed
list ["main", "master", "develop", "trunk"] that is distinct from the
detected default and validates; else the literal "main". -/
theorem get_branch_with_fallback_priority (o : ClientOracle)
    (cache : List (String × String)) (owner repo : String) (preferred : Option String) :
    (∀ p, preferred = some p → p ≠ "" → o.validate owner repo p = true →
      (get_branch_with_fallback o cache owner repo preferred).1 = p) ∧
    ((∀ p, preferred = some p → p = "" ∨ o.validate owner repo p = false) →
      (o.validate owner repo (detect_default_branch o cache owner repo).branch = true →
        (get_branch_with_fallback o cache owner repo preferred).1 =
          (detect_default_branch o cache owner repo).branch) ∧
      (o.validate owner repo (detect_default_branch o cache owner repo).branch = false →
        (get_branch_with_fallback o cache owner repo preferred).1 =
          (common_branches.find? (fun b =>
            (b != (detect_default_branch o cache owner repo).branch) &&
              o.validate owner repo b)).getD "main")) := by
  constructor
  · intro p hp hne hv
    subst hp
    simp [get_branch_with_fallback, hne, hv]
  · intro hpref
    have hrest : get_branch_with_fallback o cache owner repo preferred =
        fallback_rest o cache owner repo := by
      cases preferred with
      | none => rfl
      | some p =>
          rcases hpref p rfl with h | h
          · simp [get_branch_with_fallback, h]
          · by_cases hne : p = ""
            · simp [get_branch_with_fallback, hne]
            · simp [get_branch_with_fallback, hne, h]
    rw [hrest]
    exact fallback_rest_branch o cache owner repo

/-- C1 counterexample: with every branch validating (the empty one
included) and the metadata declaring "master", a provided preferred
branch "" is skipped by the Python truthiness test and "master" is
returned, although the given preferred branch validated — so the claim,
read over every given preferred branch, fails. -/
theorem get_branch_with_fallback_counterexample :
    oracle_all_valid.validate "o" "r" "" = true ∧
    (get_branch_with_fallback oracle_all_valid [] "o" "r" (some "")).1 = "master" ∧
    "master" ≠ "" := by
  refine ⟨rfl, ?_, by decide⟩
  simp [get_branch_with_fallback, fallback_rest, detect_default_branch, oracle_all_valid,
    dict_get]

/-- C1 witness: with no preferred branch, metadata declaring "master" and
only "develop" validating, the chain returns "develop", the first common
candidate distinct from the failed detected default that validates. -/
theorem get_branch_with_fallback_witness :
    (get_branch_with_fallback oracle_dev [] "o" "r" none).1 = "develop" := by
  have h := ((get_branch_with_fallback_priority oracle_dev [] "o" "r" none).2
    (fun p hp => nomatch hp)).2 rfl
  rw [h]
  rfl

/-! ### C5: per-commit detail fallback -/

/-- C5: with detail fetching enabled and five listed commits with
pairwise distinct SHAs, a detail-fetch failure for the third SHA neither
aborts nor shrinks the collection: the batch still yields five records,
the four whose detail fetch succeeded built from the detailed payloads
and the third built from its summary-only data (process_commit with no
detailed data); the whole pipeline is a total function, so no exception
escapes. -/
theorem collect_process_detail_fallback
    (gd : String → Except Unit RawCommit) (gT : Option String → String)
    (pD : String → Option Int) (now : Int)
    (c1 c2 c3 c4 c5 : RawCommit) (s1 s2 s3 s4 s5 : String)
    (d1 d2 d4 d5 : RawCommit) (o n u b : String)
    (h1 : c1.sha = some s1) (h2 : c2.sha = some s2) (h3 : c3.sha = some s3)
    (h4 : c4.sha = some s4) (h5 : c5.sha = some s5)
    (ne12 : s1 ≠ s2) (ne14 : s1 ≠ s4) (ne15 : s1 ≠ s5)
    (ne24 : s2 ≠ s4) (ne25 : s2 ≠ s5)
    (ne31 : s3 ≠ s1) (ne32 : s3 ≠ s2) (ne34 : s3 ≠ s4) (ne35 : s3 ≠ s5)
    (ne45 : s4 ≠ s5)
    (g1 : gd s1 = .ok d1) (g2 : gd s2 = .ok d2) (g3 : gd s3 = .error ())
    (g4 : gd s4 = .ok d4) (g5 : gd s5 = .ok d5) :
    collect_process true gd gT pD now [c1, c2, c3, c4, c5] o n u b =
      [process_commit gT pD now c1 o n u b (some d1),
       process_commit gT pD now c2 o n u b (some d2),
       process_commit gT pD now c3 o n u b none,
       process_commit gT pD now c4 o n u b (some d4),
       process_commit gT pD now c5 o n u b (some d5)] ∧
    (collect_process true gd gT pD now [c1, c2, c3, c4, c5] o n u b).length = 5 := by
  have hbuild : build_detailed_commits gd [c1, c2, c3, c4, c5] =
      dict_insert (dict_insert (dict_insert (dict_insert [] s1 d1) s2 d2) s4 d4) s5 d5 := by
    simp [build_detailed_commits, h1, h2, h3, h4, h5, g1, g2, g3, g4, g5]
  have hD : (dict_insert (dict_insert (dict_insert (dict_insert
      ([] : List (String × RawCommit)) s1 d1) s2 d2) s4 d4) s5 d5).isEmpty = false := by
    simp [dict_insert]
  have l1 : dict_get (dict_insert (dict_insert (dict_insert (dict_insert [] s1 d1)
      s2 d2) s4 d4) s5 d5) s1 = some d1 := by
    rw [dict_get_insert_ne _ _ _ _ ne15, dict_get_insert_ne _ _ _ _ ne14,
      dict_get_insert_ne _ _ _ _ ne12, dict_get_insert_self]
  have l2 : dict_get (dict_insert (dict_insert (dict_insert (dict_insert [] s1 d1)
      s2 d2) s4 d4) s5 d5) s2 = some d2 := by
    rw [dict_get_insert_ne _ _ _ _ ne25, dict_get_insert_ne _ _ _ _ ne24,
      dict_get_insert_self]
  have l3 : dict_get (dict_insert (dict_insert (dict_insert (dict_insert
      ([] : List (String × RawCommit)) s1 d1) s2 d2) s4 d4) s5 d5) s3 = none := by
    rw [dict_get_insert_ne _ _ _ _ ne35, dict_get_insert_ne _ _ _ _ ne34,
      dict_get_insert_ne _ _ _ _ ne32, dict_get_insert_ne _ _ _ _ ne31]
    rfl
  have l4 : dict_get (dict_insert (dict_insert (dict_insert (dict_insert [] s1 d1)
      s2 d2) s4 d4) s5 d5) s4 = some d4 := by
    rw [dict_get_insert_ne _ _ _ _ ne45, dict_get_insert_self]
  have l5 : dict_get (dict_insert (dict_insert (dict_insert (dict_insert [] s1 d1)
      s2 d2) s4 d4) s5 d5) s5 = some d5 := dict_get_insert_self _ _ _
  have hmain : collect_process true gd gT pD now [c1, c2, c3, c4, c5] o n u b =
      [process_commit gT pD now c1 o n u b (some d1),
       process_commit gT pD now c2 o n u b (some d2),
       process_commit gT pD now c3 o n u b none,
       process_commit gT pD now c4 o n u b (some d4),
       process_commit gT pD now c5 o n u b (some d5)] := by
    simp [collect_process, process_commits_batch, hbuild, hD,
      h1, h2, h3, h4, h5, l1, l2, l3, l4, l5]
  exact ⟨hmain, by rw [hmain]; rfl⟩

/-- C5 witness: five concrete commits with SHAs a through e, a detail
oracle that fails exactly on "c": five records, four from detailed
payloads, the third from its summary. -/
theorem collect_process_detail_fallback_witness :
    collect_process true get_details_ex (fun _ => "unassigned") (fun _ => none) 0
        [raw_commit_ex "a", raw_commit_ex "b", raw_commit_ex "c",
         raw_commit_ex "d", raw_commit_ex "e"] "o" "n" "u" "main" =
      [process_commit (fun _ => "unassigned") (fun _ => none) 0 (raw_commit_ex "a")
         "o" "n" "u" "main" (some (raw_detail_ex "a")),
       process_commit (fun _ => "unassigned") (fun _ => none) 0 (raw_commit_ex "b")
         "o" "n" "u" "main" (some (raw_detail_ex "b")),
       process_commit (fun _ => "unassigned") (fun _ => none) 0 (raw_commit_ex "c")
         "o" "n" "u" "main" none,
       process_commit (fun _ => "unassigned") (fun _ => none) 0 (raw_commit_ex "d")
         "o" "n" "u" "main" (some (raw_detail_ex "d")),
       process_commit (fun _ => "unassigned") (fun _ => none) 0 (raw_commit_ex "e")
         "o" "n" "u" "main" (some (raw_detail_ex "e"))] ∧
    (collect_process true get_details_ex (fun _ => "unassigned") (fun _ => none) 0
        [raw_commit_ex "a", raw_commit_ex "b", raw_commit_ex "c",
         raw_commit_ex "d", raw_commit_ex "e"] "o" "n" "u" "main").length = 5 :=
  collect_process_detail_fallback get_details_ex (fun _ => "unassigned") (fun _ => none) 0
    (raw_commit_ex "a") (raw_commit_ex "b") (raw_commit_ex "c") (raw_commit_ex "d")
    (raw_commit_ex "e") "a" "b" "c" "d" "e"
    (raw_detail_ex "a") (raw_detail_ex "b") (raw_detail_ex "d") (raw_detail_ex "e")
    "o" "n" "u" "main"
    rfl rfl rfl rfl rfl
    (by decide) (by decide) (by decide) (by decide) (by decide)
    (by decide) (by decide) (by decide) (by decide) (by decide)
    rfl rfl rfl rfl rfl

end GCC
